import Mathlib

/-!
Verification of the memstore repository (Go, SQLite-backed hybrid-search
fact store) against its natural-language specification.

Shallow embedding conventions:
* Machine integers (`int64`, counters) are `Int` / `Nat`.
* `float32` values are modelled by their 32-bit IEEE-754 bit patterns
  (`Nat`, below `2^32`): `math.Float32bits` and `math.Float32frombits` are
  mutually inverse bit-pattern casts in Go, and the vector codec under
  study manipulates floats purely as bit patterns.
* `float64` scores are modelled over `ℚ`; the one transcendental on the
  scoring path, `math.Pow(0.5, x)`, is threaded through as an explicit
  function parameter `pow`, so theorems quantify over it.
* SQL tables are lists of rows; Go `error` returns become `Except String`.
* Timestamps (RFC3339 UTC strings in the database) are rational epoch
  seconds; `time.Duration` values are rational seconds.
* Go map iteration order is unspecified; maps keyed by fact id are
  modelled as association lists in first-insertion order.  The merge
  re-sorts by combined score, so this only fixes tie order, which the
  source leaves unspecified as well (`sort.Slice` is unstable).
* JSON metadata is modelled by its parse outcome: `none` for an absent,
  empty or unparseable payload, `some m` for a parsed top-level object
  whose values are rendered to strings the way Go's `fmt.Sprintf("%v", v)`
  renders them (the code only ever compares these renderings).
-/

namespace Memstore

/-! ## Definitions -/

/-! ### Vector codec (embedding.go: `EncodeFloat32s`, `DecodeFloat32s`) -/

/-- `EncodeFloat32s`: serialize a float32 slice (here: 32-bit words) to a
little-endian byte slice, 4 bytes per element; `binary.LittleEndian.PutUint32`
writes `w % 2^8, (w >> 8) % 2^8, (w >> 16) % 2^8, (w >> 24) % 2^8`. -/
def EncodeFloat32s : List Nat → List Nat
  | [] => []
  | w :: t =>
      w % 2 ^ 8 :: w / 2 ^ 8 % 2 ^ 8 :: w / 2 ^ 16 % 2 ^ 8 :: w / 2 ^ 24 % 2 ^ 8 ::
        EncodeFloat32s t

/-- `DecodeFloat32s`: deserialize a little-endian byte slice back into 32-bit
words. Go computes `n := len(buf) / 4` and reads `n` words, so a trailing
remainder of fewer than 4 bytes is dropped; peeling groups of 4 is the same
computation. -/
def DecodeFloat32s : List Nat → List Nat
  | b0 :: b1 :: b2 :: b3 :: t =>
      (b0 + 2 ^ 8 * b1 + 2 ^ 16 * b2 + 2 ^ 24 * b3) :: DecodeFloat32s t
  | _ => []

/-- Every entry of the list is a byte value. -/
def AllBytes (l : List Nat) : Prop := ∀ b ∈ l, b < 2 ^ 8

/-- Every entry of the list is a 32-bit value. -/
def AllWords (l : List Nat) : Prop := ∀ w ∈ l, w < 2 ^ 32

/-! ### FTS query quoting (search.go: `quoteFTSQuery`, `searchFTS`) -/

/-- Whitespace per Go's `unicode.IsSpace` (the Unicode `White_Space`
property), which `strings.Fields` splits on. -/
def isGoSpace (c : Char) : Bool :=
  let n := c.toNat
  n == 0x20 || decide (0x9 ≤ n ∧ n ≤ 0xD) || n == 0x85 || n == 0xA0 ||
    n == 0x1680 || decide (0x2000 ≤ n ∧ n ≤ 0x200A) || n == 0x2028 ||
    n == 0x2029 || n == 0x202F || n == 0x205F || n == 0x3000

/-- Accumulator pass behind `fields`: split the input around maximal runs of
whitespace, dropping empty segments, as `strings.Fields` does. -/
def fieldsAux : List Char → List Char → List (List Char)
  | [], acc => if acc = [] then [] else [acc.reverse]
  | c :: t, acc =>
      if isGoSpace c then
        if acc = [] then fieldsAux t [] else acc.reverse :: fieldsAux t []
      else fieldsAux t (c :: acc)

/-- `strings.Fields`: the whitespace-separated words of the input. -/
def fields (l : List Char) : List (List Char) := fieldsAux l []

/-- `strings.ReplaceAll(w, quote, quotequote)`: double every `"` character. -/
def escapeQuotes : List Char → List Char
  | [] => []
  | c :: t => if c = '"' then '"' :: '"' :: escapeQuotes t else c :: escapeQuotes t

/-- One quoted word: a leading `"`, the escaped word, a closing `"`. -/
def quoteWord (w : List Char) : List Char := '"' :: (escapeQuotes w ++ ['"'])

/-- `strings.Join(words, space)`. -/
def joinSpace : List (List Char) → List Char
  | [] => []
  | [w] => w
  | w :: ws => w ++ ' ' :: joinSpace ws

/-- `quoteFTSQuery`: tokenize by whitespace; if no tokens remain return the
empty string, else join the individually double-quoted tokens with spaces. -/
def quoteFTSQuery (raw : List Char) : List Char :=
  let words := fields raw
  if words = [] then [] else joinSpace (words.map quoteWord)

/-- States of a recognizer for the quoted-phrase fragment of the FTS5 MATCH
grammar that `quoteFTSQuery` emits into: a non-empty sequence of
double-quoted string literals (with `""` as the escape for a quote)
separated by single spaces.  This models "the index parses the query
without a syntax error" for such strings. -/
inductive FTSState
  | expectPhrase
  | inPhrase
  | sawQuote
deriving DecidableEq

/-- One step of the quoted-phrase recognizer; `none` is a parse error. -/
def ftsStep : FTSState → Char → Option FTSState
  | .expectPhrase, c => if c = '"' then some .inPhrase else none
  | .inPhrase, c => if c = '"' then some .sawQuote else some .inPhrase
  | .sawQuote, c =>
      if c = '"' then some .inPhrase
      else if c = ' ' then some .expectPhrase
      else none

/-- Run the quoted-phrase recognizer over the input. -/
def ftsRun : Option FTSState → List Char → Option FTSState
  | none, _ => none
  | some s, [] => some s
  | some s, c :: t => ftsRun (ftsStep s c) t

/-- The input is a well-formed non-empty sequence of quoted phrases: the
recognizer ends having just closed a phrase. -/
def ftsWellFormed (l : List Char) : Bool :=
  decide (ftsRun (some .expectPhrase) l = some .sawQuote)

/-! ### Fact rows and namespace-scoped store operations (store.go, sqlite.go) -/

/-- A row of `memstore_facts`, mirroring the `Fact` struct (store.go).
`Embedding` is the decoded blob as 32-bit words, `[]` for NULL; `Metadata`
is the parse-outcome model described in the header. -/
structure Fact where
  ID : Int
  Namespace : String
  Content : String
  Subject : String
  Category : String
  Metadata : Option (List (String × String))
  SupersededBy : Option Int
  SupersededAt : Option ℚ
  ConfirmedCount : Int
  LastConfirmedAt : Option ℚ
  Embedding : List Nat
  CreatedAt : ℚ
deriving DecidableEq

/-- AUTOINCREMENT id assignment for the next insert. -/
def nextId (rows : List Fact) : Int := (rows.map Fact.ID).foldl max 0 + 1

/-- `Insert`: stamp `created_at` when zero, then insert the fact with the
namespace forced to the store's own value; returns the new rows and the
assigned id. -/
def insertRow (rows : List Fact) (ns : String) (now : ℚ) (f : Fact) :
    List Fact × Int :=
  let f := if f.CreatedAt = 0 then { f with CreatedAt := now } else f
  let id := nextId rows
  (rows ++ [{ f with Namespace := ns, ID := id }], id)

/-- The `WHERE id = ? AND namespace = ?` predicate shared by `Get`,
`Delete`, `Confirm` and `SetEmbedding`. -/
def rowMatches (ns : String) (id : Int) (r : Fact) : Bool :=
  r.ID == id && r.Namespace == ns

/-- `Get`: first row with this id in this namespace; no row is `none`
(the code maps `sql.ErrNoRows` to a nil fact and a nil error). -/
def getRow (rows : List Fact) (ns : String) (id : Int) : Option Fact :=
  rows.find? (rowMatches ns id)

/-- `Delete`: remove the row scoped by namespace; zero rows affected is the
not-found error. -/
def deleteRow (rows : List Fact) (ns : String) (id : Int) :
    Except String (List Fact) :=
  if rows.any (rowMatches ns id) then
    .ok (rows.filter (fun r => !rowMatches ns id r))
  else .error s!"memstore: fact {id} not found"

/-- `Confirm`: conditional increment of `confirmed_count` plus
`last_confirmed_at := now`, scoped by namespace; zero rows affected is the
not-found error. -/
def confirmRow (rows : List Fact) (ns : String) (id : Int) (now : ℚ) :
    Except String (List Fact) :=
  if rows.any (rowMatches ns id) then
    .ok (rows.map fun r =>
      if rowMatches ns id r then
        { r with ConfirmedCount := r.ConfirmedCount + 1,
                 LastConfirmedAt := some now }
      else r)
  else .error s!"memstore: fact {id} not found"

/-- The guard of `Supersede`:
`WHERE id = ? AND namespace = ? AND superseded_by IS NULL`. -/
def supersedeMatch (ns : String) (oldID : Int) (r : Fact) : Bool :=
  r.ID == oldID && r.Namespace == ns && r.SupersededBy == none

/-- `Supersede`: guarded update setting `superseded_by` and `superseded_at`;
zero rows affected is the not-found-or-already-superseded error. -/
def supersedeRows (rows : List Fact) (ns : String) (oldID newID : Int)
    (now : ℚ) : Except String (List Fact) :=
  if rows.any (supersedeMatch ns oldID) then
    .ok (rows.map fun r =>
      if supersedeMatch ns oldID r then
        { r with SupersededBy := some newID, SupersededAt := some now }
      else r)
  else .error s!"memstore: fact {oldID} not found or already superseded"

/-- `SetEmbedding`: update scoped by namespace; the code never inspects the
affected-row count, so a miss is a silent no-op. -/
def setEmbeddingRows (rows : List Fact) (ns : String) (id : Int)
    (emb : List Nat) : List Fact :=
  rows.map fun r => if rowMatches ns id r then { r with Embedding := emb } else r

/-- `appendNamespaceFilter`: a non-empty override queries exactly the listed
namespaces (`IN (...)`); an empty one queries the store's own namespace. -/
def namespaceScope (ns : String) (nss : List String) : List String :=
  if nss = [] then [ns] else nss

/-- Whether the row's namespace passes the namespace filter. -/
def inNamespaceScope (ns : String) (nss : List String) (r : Fact) : Bool :=
  (namespaceScope ns nss).contains r.Namespace

/-- `QueryOpts` (store.go), restricted to the fields the verified claims
exercise; the metadata and temporal filters are additional conjunctive
`WHERE` clauses orthogonal to these claims and are elided. -/
structure QueryOpts where
  Subject : String
  Category : String
  OnlyActive : Bool
  Namespaces : List String
  Limit : Nat
deriving DecidableEq

/-- The row filter of `List`: namespace scope, subject, category, and the
active guard, each applied only when requested. -/
def listFilter (ns : String) (o : QueryOpts) (r : Fact) : Bool :=
  inNamespaceScope ns o.Namespaces r &&
    (o.Subject == "" || r.Subject == o.Subject) &&
    (o.Category == "" || r.Category == o.Category) &&
    (!o.OnlyActive || r.SupersededBy == none)

/-- `List`: filter, `ORDER BY id`, apply `LIMIT` only when positive. -/
def listRows (rows : List Fact) (ns : String) (o : QueryOpts) : List Fact :=
  let ordered := (rows.filter (listFilter ns o)).insertionSort
    (fun a b => a.ID ≤ b.ID)
  if o.Limit = 0 then ordered else ordered.take o.Limit

/-- `searchFTS`: quote the raw query; an empty quoted query returns an empty
result set without touching the index; otherwise the quoted query — and
never the raw one — is handed to the index's MATCH (modelled by `matcher`,
the database's FTS5 match predicate) over the namespace-, subject-,
category- and active-filtered rows.  BM25 ranks and result records are
handled by the merge stage and elided here. -/
def searchFTS (matcher : List Char → Fact → Bool) (rows : List Fact)
    (ns : String) (o : QueryOpts) (query : List Char) : List Fact :=
  let q := quoteFTSQuery query
  if q = [] then []
  else rows.filter (fun r => matcher q r && listFilter ns o r)

/-- Primary-key invariant of `memstore_facts`: ids are pairwise distinct
across the whole table (ids are global, namespaces are not part of the
key). -/
def uniqueIds (rows : List Fact) : Prop :=
  List.Pairwise (fun a b => a.ID ≠ b.ID) rows

/-- A concrete active fact, used by closed witness instances. -/
def sampleFact : Fact :=
  { ID := 1, Namespace := "alpha", Content := "Matthew uses vim",
    Subject := "matthew", Category := "preference", Metadata := none,
    SupersededBy := none, SupersededAt := none, ConfirmedCount := 0,
    LastConfirmedAt := none, Embedding := [1], CreatedAt := 1 }

/-- A concrete replacement fact for the same subject, used by closed
witness instances. -/
def sampleNewFact : Fact :=
  { sampleFact with ID := 2, Content := "Matthew uses neovim" }

/-- A concrete `note`-category fact created at time 0, searched 30 days
(2592000 s) later; the row on which the category-decay divergence is
exhibited. -/
def noteFact : Fact :=
  { sampleFact with ID := 3, Category := "note", CreatedAt := 0 }

/-! ### Hybrid search merge (search.go: `mergeResults`) and its options -/

/-- `SearchResult` (store.go) over rational scores. -/
structure SearchResult where
  Fact : Fact
  FTSScore : ℚ
  VecScore : ℚ
  Combined : ℚ
deriving DecidableEq

/-- `SearchOpts` fields that `mergeResults` consumes, plus `CategoryDecay`
exactly as declared in store.go (`per-category half-life overrides; 0 = no
decay for that category`).  Durations are rational seconds. -/
structure SearchOpts where
  MaxResults : Nat
  FTSWeight : ℚ
  VecWeight : ℚ
  DecayHalfLife : ℚ
  CategoryDecay : List (String × ℚ)
deriving DecidableEq

/-- The running maximum of the FTS scores, starting at 0 (`var maxFTS`). -/
def maxFTSScore (fts : List SearchResult) : ℚ :=
  fts.foldl (fun m r => if r.FTSScore > m then r.FTSScore else m) 0

/-- `byID[r.Fact.ID] = &sr`: replace the entry with this fact id, or append. -/
def upsertById (m : List SearchResult) (sr : SearchResult) : List SearchResult :=
  if m.any (fun x => x.Fact.ID == sr.Fact.ID) then
    m.map (fun x => if x.Fact.ID == sr.Fact.ID then sr else x)
  else m ++ [sr]

/-- The vector overlay pass: patch `VecScore` onto an existing entry, or
insert a vector-only entry. -/
def overlayVec (m : List SearchResult) (r : SearchResult) : List SearchResult :=
  if m.any (fun x => x.Fact.ID == r.Fact.ID) then
    m.map (fun x =>
      if x.Fact.ID == r.Fact.ID then { x with VecScore := r.VecScore } else x)
  else m ++ [{ Fact := r.Fact, FTSScore := 0, VecScore := r.VecScore,
               Combined := 0 }]

/-- The scoring loop body: blend with the configured weights, then, when the
default half-life is positive, multiply by `pow(age / half_life)` where
`pow` stands for `x ↦ math.Pow(0.5, x)`.  This is all the decay the code
performs; `CategoryDecay` is never consulted. -/
def scoreResult (pow : ℚ → ℚ) (now : ℚ) (o : SearchOpts) (r : SearchResult) :
    SearchResult :=
  let combined := o.FTSWeight * r.FTSScore + o.VecWeight * r.VecScore
  if o.DecayHalfLife > 0 then
    { r with Combined := combined * pow ((now - r.Fact.CreatedAt) / o.DecayHalfLife) }
  else
    { r with Combined := combined }

/-- `mergeResults`: normalize FTS scores by their maximum (when positive),
deduplicate by fact id, overlay vector scores, blend and optionally decay,
sort by combined score descending, truncate to `MaxResults`. -/
def mergeResults (pow : ℚ → ℚ) (now : ℚ) (fts vec : List SearchResult)
    (o : SearchOpts) : List SearchResult :=
  let maxFTS := maxFTSScore fts
  let base := fts.foldl (fun m r =>
    upsertById m
      { Fact := r.Fact,
        FTSScore := if maxFTS > 0 then r.FTSScore / maxFTS else r.FTSScore,
        VecScore := 0, Combined := 0 }) []
  let byId := vec.foldl overlayVec base
  let merged := (byId.map (scoreResult pow now o)).insertionSort
    (fun a b => a.Combined ≥ b.Combined)
  if merged.length > o.MaxResults then merged.take o.MaxResults else merged

/-! ### Extraction pipeline (extract.go: `MetadataConflicts`,
`trySupersedeExisting`) -/

/-- `MetadataConflicts`: false when either payload is empty/unparseable;
otherwise true iff some key of the first object also occurs in the second
with a different rendered value. -/
def MetadataConflicts (a b : Option (List (String × String))) : Bool :=
  match a, b with
  | some ma, some mb =>
      ma.any (fun kv =>
        match mb.lookup kv.1 with
        | some vb => kv.2 != vb
        | none => false)
  | _, _ => false

/-- `similarityThreshold`: minimum cosine similarity for automatic
supersession. -/
def similarityThreshold : ℚ := 85 / 100

/-- One iteration of the candidate loop of `trySupersedeExisting`: skip the
new fact itself, candidates without embeddings, and metadata conflicts;
otherwise keep the candidate when its similarity strictly beats the best so
far.  `sim` stands for `CosineSimilarity` of the two facts' embeddings. -/
def supersedeStep (newFact : Fact) (sim : Fact → Fact → ℚ) (best : ℚ × Int)
    (r : Fact) : ℚ × Int :=
  if r.ID == newFact.ID then best
  else if r.Embedding == [] then best
  else if MetadataConflicts newFact.Metadata r.Metadata then best
  else if sim newFact r > best.1 then (sim newFact r, r.ID) else best

/-- The candidate loop of `trySupersedeExisting`, starting from
`(bestSim, bestID) = (0, 0)`. -/
def supersedeFold (newFact : Fact) (sim : Fact → Fact → ℚ)
    (results : List Fact) : ℚ × Int :=
  results.foldl (supersedeStep newFact sim) (0, 0)

/-- The decision of `trySupersedeExisting`: `some bestID` exactly when the
code would call `Supersede(bestID, newFact.ID)`.  `results` is what
`store.Search(newFact.Content, {MaxResults: 10, Subject: newFact.Subject,
OnlyActive: true})` returned; `embedderPresent` is `e.embedder != nil`. -/
def trySupersedeExisting (embedderPresent : Bool) (newFact : Fact)
    (sim : Fact → Fact → ℚ) (results : List Fact) : Option Int :=
  if !embedderPresent || newFact.Embedding == [] || newFact.ID == 0 then none
  else if (supersedeFold newFact sim results).1 < similarityThreshold ∨
      (supersedeFold newFact sim results).2 = 0 then none
  else some (supersedeFold newFact sim results).2

/-- A candidate the loop does not skip. -/
def eligibleCandidate (newFact : Fact) (r : Fact) : Bool :=
  !(r.ID == newFact.ID) && !(r.Embedding == []) &&
    !MetadataConflicts newFact.Metadata r.Metadata

/-- The highest similarity among eligible candidates, floored at 0. -/
def bestEligibleSim (newFact : Fact) (sim : Fact → Fact → ℚ)
    (results : List Fact) : ℚ :=
  (results.filter (eligibleCandidate newFact)).foldl
    (fun m r => max m (sim newFact r)) 0

/-! ### Schema migrations and embedder binding (sqlite.go) -/

/-- `schemaVersion` as declared in sqlite.go. -/
def schemaVersion : Int := 5

/-- Columns created by the V1 fact table. -/
def baseFactColumns : List String :=
  ["id", "content", "subject", "category", "metadata", "superseded_by",
   "embedding", "created_at"]

/-- The schema-level state of the database: version row, fact-table columns
(`none` when the table does not exist), the auxiliary objects each
migration creates, and the `memstore_meta` contents. -/
structure DbState where
  versionRow : Option Int
  factsTable : Option (List String)
  hasFTS : Bool
  hasTriggers : Bool
  hasMetaTable : Bool
  hasSubjectIdx : Bool
  hasCategoryIdx : Bool
  hasActiveIdx : Bool
  hasNamespaceIdx : Bool
  meta : List (String × String)
deriving DecidableEq

/-- `ALTER TABLE memstore_facts ADD COLUMN c`. -/
def addColumn (s : DbState) (c : String) : DbState :=
  match s.factsTable with
  | some cols => { s with factsTable := some (cols ++ [c]) }
  | none => s

/-- V1: fact table, FTS index, sync triggers, secondary indexes
(`CREATE ... IF NOT EXISTS`). -/
def migrateV1 (s : DbState) : DbState :=
  { s with
    factsTable := some (s.factsTable.getD baseFactColumns),
    hasFTS := true, hasTriggers := true,
    hasSubjectIdx := true, hasCategoryIdx := true, hasActiveIdx := true }

/-- V2: the key/value meta table. -/
def migrateV2 (s : DbState) : DbState := { s with hasMetaTable := true }

/-- V3: `namespace` column and its index. -/
def migrateV3 (s : DbState) : DbState :=
  { addColumn s "namespace" with hasNamespaceIdx := true }

/-- V4: `superseded_at` column. -/
def migrateV4 (s : DbState) : DbState := addColumn s "superseded_at"

/-- V5: `confirmed_count` and `last_confirmed_at` columns. -/
def migrateV5 (s : DbState) : DbState :=
  addColumn (addColumn s "confirmed_count") "last_confirmed_at"

/-- `migrate`: read the version (an empty version table reads as 0), stop
when already at `schemaVersion`, otherwise apply each pending step in
ascending order and write `schemaVersion` back. -/
def migrate (s : DbState) : DbState :=
  let v := s.versionRow.getD 0
  if v ≥ schemaVersion then s
  else
    let s1 := if v < 1 then migrateV1 s else s
    let s2 := if v < 2 then migrateV2 s1 else s1
    let s3 := if v < 3 then migrateV3 s2 else s2
    let s4 := if v < 4 then migrateV4 s3 else s3
    let s5 := if v < 5 then migrateV5 s4 else s4
    { s5 with versionRow := some schemaVersion }

/-- A freshly created database file. -/
def emptyDb : DbState :=
  { versionRow := none, factsTable := none, hasFTS := false,
    hasTriggers := false, hasMetaTable := false, hasSubjectIdx := false,
    hasCategoryIdx := false, hasActiveIdx := false, hasNamespaceIdx := false,
    meta := [] }

/-- First value for a key in `memstore_meta` (`QueryRow ... WHERE key = ?`). -/
def lookupMeta (meta : List (String × String)) (k : String) : Option String :=
  (meta.find? (fun kv => kv.1 == k)).map (fun kv => kv.2)

/-- `validateEmbedder`: no recorded model is fine; a recorded model must
equal the configured embedder's model or the open fails. -/
def validateEmbedder (meta : List (String × String)) (model : String) :
    Except String Unit :=
  match lookupMeta meta "embedding_model" with
  | none => .ok ()
  | some stored =>
      if model ≠ stored then
        .error s!"memstore: embedding model mismatch: store has {stored}, embedder provides {model}"
      else .ok ()

/-- A configured embedder for the open-time check: the Go interface exposes
only the model identifier; the dimension of the vectors it produces (the
spec's fixed-dimension attribute) is carried alongside to express claims
about dimension checking. -/
structure EmbedderModel where
  model : String
  dim : Nat
deriving DecidableEq

/-- `NewSQLiteStore`: migrate, then when an embedder is supplied validate it
against the recorded binding; a validation error aborts the open with no
store.  The result carries the migrated state and the store's namespace. -/
def NewSQLiteStore (s : DbState) (embedder : Option EmbedderModel)
    (ns : String) : Except String (DbState × String) :=
  let s := migrate s
  match embedder with
  | some e =>
      match validateEmbedder s.meta e.model with
      | .error msg => .error msg
      | .ok () => .ok (s, ns)
  | none => .ok (s, ns)

/-- `recordEmbedder`: on the first embedding write (no `embedding_model` row
yet) insert both the model identifier and the dimension; otherwise leave
the meta table unchanged. -/
def recordEmbedder (meta : List (String × String)) (model : String)
    (dim : Nat) : List (String × String) :=
  if meta.countP (fun kv => kv.1 == "embedding_model") > 0 then meta
  else meta ++ [("embedding_model", model), ("embedding_dim", toString dim)]

end Memstore

namespace Memstore

/-! ## Theorems -/

/-! ### C9 — vector codec round-trip -/

theorem encode_decode_bytes (bs : List Nat) (hb : AllBytes bs)
    (hlen : bs.length % 4 = 0) : EncodeFloat32s (DecodeFloat32s bs) = bs := by
  induction bs using DecodeFloat32s.induct with
  | case1 b0 b1 b2 b3 t ih =>
      have h0 : b0 < 2 ^ 8 := hb b0 (by simp)
      have h1 : b1 < 2 ^ 8 := hb b1 (by simp)
      have h2 : b2 < 2 ^ 8 := hb b2 (by simp)
      have h3 : b3 < 2 ^ 8 := hb b3 (by simp)
      have ht : AllBytes t := fun b hbmem => hb b (by simp [hbmem])
      have htl : t.length % 4 = 0 := by
        have : (b0 :: b1 :: b2 :: b3 :: t).length = t.length + 4 := by
          simp [List.length]
        omega
      simp only [DecodeFloat32s, EncodeFloat32s, ih ht htl, List.cons.injEq,
        and_true]
      refine ⟨?_, ?_, ?_, ?_⟩ <;> omega
  | case2 l h =>
      match l, h with
      | [], _ => simp [DecodeFloat32s, EncodeFloat32s]
      | [b0], _ => simp at hlen
      | [b0, b1], _ => simp at hlen
      | [b0, b1, b2], _ => simp at hlen
      | b0 :: b1 :: b2 :: b3 :: t, h => exact absurd rfl (h b0 b1 b2 b3 t)

theorem decode_encode_words (ws : List Nat) (hw : AllWords ws) :
    DecodeFloat32s (EncodeFloat32s ws) = ws := by
  induction ws with
  | nil => simp [EncodeFloat32s, DecodeFloat32s]
  | cons w t ih =>
      have hwlt : w < 2 ^ 32 := hw w (by simp)
      have ht : AllWords t := fun x hx => hw x (by simp [hx])
      simp only [EncodeFloat32s, DecodeFloat32s, ih ht, List.cons.injEq,
        and_true]
      omega

theorem encode_length (ws : List Nat) :
    (EncodeFloat32s ws).length = 4 * ws.length := by
  induction ws with
  | nil => simp [EncodeFloat32s]
  | cons w t ih => simp [EncodeFloat32s, ih]; ring

/-- C9: the vector codec round-trips in both directions: decoding a byte
sequence of length `4n` and re-encoding yields the original bytes, and
encoding a float32 vector (as bit patterns) then decoding yields a bitwise
identical vector of the same length. -/
theorem C9_codec_roundtrip (bs ws : List Nat) (hb : AllBytes bs)
    (hlen : bs.length % 4 = 0) (hw : AllWords ws) :
    EncodeFloat32s (DecodeFloat32s bs) = bs ∧
      DecodeFloat32s (EncodeFloat32s ws) = ws ∧
      (EncodeFloat32s ws).length = 4 * ws.length :=
  ⟨encode_decode_bytes bs hb hlen, decode_encode_words ws hw,
    encode_length ws⟩

theorem C5_aux_ftsRun_escape (w rest : List Char) :
    ftsRun (some .inPhrase) (escapeQuotes w ++ rest) =
      ftsRun (some .inPhrase) rest := by
  induction w with
  | nil => simp [escapeQuotes]
  | cons c t ih =>
      by_cases hc : c = '"'
      · subst hc
        simpa [escapeQuotes, ftsRun, ftsStep] using ih
      · simpa [escapeQuotes, hc, ftsRun, ftsStep] using ih

theorem C5_aux_ftsRun_quoteWord (w rest : List Char) :
    ftsRun (some .expectPhrase) (quoteWord w ++ rest) =
      ftsRun (some .sawQuote) rest := by
  have hshape : quoteWord w ++ rest = '"' :: (escapeQuotes w ++ ('"' :: rest)) := by
    simp [quoteWord]
  rw [hshape]
  have h1 : ftsRun (some .expectPhrase) ('"' :: (escapeQuotes w ++ '"' :: rest)) =
      ftsRun (some .inPhrase) (escapeQuotes w ++ '"' :: rest) := by
    simp [ftsRun, ftsStep]
  rw [h1, C5_aux_ftsRun_escape]
  simp [ftsRun, ftsStep]

theorem C5_aux_joinQuoted (ws : List (List Char)) (hne : ws ≠ []) :
    ftsRun (some .expectPhrase) (joinSpace (ws.map quoteWord)) =
      some .sawQuote := by
  induction ws with
  | nil => exact absurd rfl hne
  | cons w t ih =>
      cases t with
      | nil =>
          have := C5_aux_ftsRun_quoteWord w []
          simpa [joinSpace, ftsRun] using this
      | cons w2 t2 =>
          have hj : joinSpace ((w :: w2 :: t2).map quoteWord) =
              quoteWord w ++ ' ' :: joinSpace ((w2 :: t2).map quoteWord) := by
            simp [joinSpace]
          rw [hj, C5_aux_ftsRun_quoteWord]
          show ftsRun (ftsStep .sawQuote ' ') (joinSpace ((w2 :: t2).map quoteWord)) =
            some .sawQuote
          simpa [ftsStep] using ih (by simp)

/-- C5: the lexical pass tokenizes the raw query by whitespace and wraps
each token in double quotes with internal quotes doubled before the query
reaches the index; a query with no tokens yields an empty lexical result
set; the quoted query is always a well-formed sequence of FTS5 phrase
literals, so queries containing operator syntax cannot produce a parse
error. -/
theorem C5_fts_query_safety (raw : List Char)
    (matcher : List Char → Fact → Bool) (rows : List Fact) (ns : String)
    (o : QueryOpts) :
    (fields raw ≠ [] →
      quoteFTSQuery raw = joinSpace ((fields raw).map quoteWord)) ∧
      (fields raw = [] → searchFTS matcher rows ns o raw = []) ∧
      (fields raw ≠ [] → ftsWellFormed (quoteFTSQuery raw) = true) := by
  refine ⟨fun hne => ?_, fun hn => ?_, fun hne => ?_⟩
  · simp [quoteFTSQuery, hne]
  · simp [searchFTS, quoteFTSQuery, hn]
  · simp only [quoteFTSQuery, if_neg hne, ftsWellFormed]
    rw [C5_aux_joinQuoted (fields raw) hne]
    simp

theorem C5_fts_query_safety_witness :
    (fields ("x OR -y: z".toList ++ ['"']) ≠ [] →
      quoteFTSQuery ("x OR -y: z".toList ++ ['"']) =
        joinSpace ((fields ("x OR -y: z".toList ++ ['"'])).map quoteWord)) ∧
      (fields ("x OR -y: z".toList ++ ['"']) = [] →
        searchFTS (fun _ _ => true) [] "" ⟨"", "", false, [], 0⟩
          ("x OR -y: z".toList ++ ['"']) = []) ∧
      ftsWellFormed (quoteFTSQuery ("x OR -y: z".toList ++ ['"'])) = true := by
  have h := C5_fts_query_safety ("x OR -y: z".toList ++ ['"'])
    (fun _ _ => true) [] "" ⟨"", "", false, [], 0⟩
  exact ⟨h.1, h.2.1, h.2.2 (by decide)⟩

/-! ### Store-operation lemmas shared by C4, C6, C10 -/

theorem rowMatches_eq_true (ns : String) (id : Int) (r : Fact) :
    rowMatches ns id r = true ↔ r.ID = id ∧ r.Namespace = ns := by
  simp [rowMatches]

theorem supersedeMatch_eq_true (ns : String) (oldID : Int) (r : Fact) :
    supersedeMatch ns oldID r = true ↔
      r.ID = oldID ∧ r.Namespace = ns ∧ r.SupersededBy = none := by
  simp [supersedeMatch, and_assoc]

theorem map_eq_self_of_mem {α : Type} (l : List α) (fn : α → α)
    (h : ∀ x ∈ l, fn x = x) : l.map fn = l := by
  induction l with
  | nil => rfl
  | cons a t ih =>
      simp only [List.map_cons, h a (by simp), List.cons.injEq, true_and]
      exact ih fun x hx => h x (by simp [hx])

theorem getRow_after_supersede (rows : List Fact) (ns : String) (f g : Int)
    (now : ℚ) (hu : uniqueIds rows) (r₀ : Fact) (hr : r₀ ∈ rows)
    (hm : supersedeMatch ns f r₀ = true) :
    getRow (rows.map fun r =>
        if supersedeMatch ns f r then
          { r with SupersededBy := some g, SupersededAt := some now }
        else r) ns f =
      some { r₀ with SupersededBy := some g, SupersededAt := some now } := by
  induction rows with
  | nil => cases hr
  | cons a t ih =>
      obtain ⟨hid, hns, hsb⟩ := (supersedeMatch_eq_true ns f r₀).1 hm
      cases hr with
      | head =>
        have hmatch : rowMatches ns f
            { r₀ with SupersededBy := some g, SupersededAt := some now } =
            true := by
          rw [rowMatches_eq_true]; exact ⟨hid, hns⟩
        simp only [List.map_cons, getRow, if_pos hm, List.find?_cons, hmatch]
      | tail b hr' =>
        have hane : a.ID ≠ r₀.ID := (List.pairwise_cons.1 hu).1 r₀ hr'
        have haf : a.ID ≠ f := hid ▸ hane
        have hm_a : supersedeMatch ns f a = false := by
          rw [Bool.eq_false_iff]
          intro hc
          exact haf ((supersedeMatch_eq_true ns f a).1 hc).1
        have hrm_a : rowMatches ns f a = false := by
          rw [Bool.eq_false_iff]
          intro hc
          exact haf ((rowMatches_eq_true ns f a).1 hc).1
        have ht : uniqueIds t := (List.pairwise_cons.1 hu).2
        simp only [List.map_cons, getRow, hm_a, if_false, Bool.false_eq_true,
          List.find?_cons, hrm_a]
        exact ih ht hr'

theorem supersede_no_rematch (rows : List Fact) (ns : String) (f g : Int)
    (now : ℚ) :
    ∀ x ∈ (rows.map fun r =>
        if supersedeMatch ns f r then
          { r with SupersededBy := some g, SupersededAt := some now }
        else r),
      supersedeMatch ns f x = false := by
  intro x hx
  obtain ⟨y, hy, rfl⟩ := List.mem_map.1 hx
  by_cases hm : supersedeMatch ns f y = true
  · rw [if_pos hm, Bool.eq_false_iff]
    intro hc
    have := ((supersedeMatch_eq_true ns f _).1 hc).2.2
    simp at this
  · rw [if_neg hm]
    exact Bool.eq_false_iff.2 hm

theorem supersedeRows_ok_of_any (rows : List Fact) (ns : String)
    (oldID newID : Int) (now : ℚ)
    (h : rows.any (supersedeMatch ns oldID) = true) :
    supersedeRows rows ns oldID newID now = .ok (rows.map fun r =>
      if supersedeMatch ns oldID r then
        { r with SupersededBy := some newID, SupersededAt := some now }
      else r) := by
  simp [supersedeRows, h]

/-! ### C4 — a supersession link is one-shot -/

/-- C4: for an active fact `f` in the store's namespace, `supersede(f, g)`
succeeds, after which `get(f)` carries `superseded_by = g` and
`superseded_at = now`, `f` no longer appears in `list(only_active)`, and a
second supersede of `f` fails with the not-found-or-already-superseded
error; when no active `(f, namespace)` row exists the operation fails with
that same error and changes nothing. -/
theorem C4_supersession_one_shot (rows : List Fact) (ns : String)
    (f g g' : Int) (now now' : ℚ) (r₀ : Fact) :
    (uniqueIds rows → r₀ ∈ rows → supersedeMatch ns f r₀ = true →
      ∃ rows', supersedeRows rows ns f g now = .ok rows' ∧
        getRow rows' ns f =
          some { r₀ with SupersededBy := some g, SupersededAt := some now } ∧
        (∀ x ∈ listRows rows' ns ⟨"", "", true, [], 0⟩, x.ID ≠ f) ∧
        supersedeRows rows' ns f g' now' =
          .error s!"memstore: fact {f} not found or already superseded") ∧
      ((∀ r ∈ rows, supersedeMatch ns f r = false) →
        supersedeRows rows ns f g now =
          .error s!"memstore: fact {f} not found or already superseded") := by
  constructor
  · intro hu hr hm
    have hany : rows.any (supersedeMatch ns f) = true := by
      rw [List.any_eq_true]
      exact ⟨r₀, hr, hm⟩
    refine ⟨_, supersedeRows_ok_of_any rows ns f g now hany, ?_, ?_, ?_⟩
    · exact getRow_after_supersede rows ns f g now hu r₀ hr hm
    · intro x hx hxf
      have hx' : x ∈ (rows.map fun r =>
          if supersedeMatch ns f r then
            { r with SupersededBy := some g, SupersededAt := some now }
          else r) ∧ listFilter ns ⟨"", "", true, [], 0⟩ x = true := by
        have hperm := List.perm_insertionSort
          (fun a b : Fact => a.ID ≤ b.ID)
          ((rows.map fun r =>
            if supersedeMatch ns f r then
              { r with SupersededBy := some g, SupersededAt := some now }
            else r).filter (listFilter ns ⟨"", "", true, [], 0⟩))
        have : x ∈ (rows.map fun r =>
            if supersedeMatch ns f r then
              { r with SupersededBy := some g, SupersededAt := some now }
            else r).filter (listFilter ns ⟨"", "", true, [], 0⟩) := by
          have hxl := hx
          simp only [listRows, if_pos rfl] at hxl
          exact hperm.mem_iff.1 hxl
        exact ⟨List.mem_of_mem_filter this, List.of_mem_filter this⟩
      obtain ⟨hxin, hxfil⟩ := hx'
      have hnone : x.SupersededBy = none := by
        simp only [listFilter, Bool.and_eq_true] at hxfil
        have := hxfil.2
        simpa using this
      have hns : x.Namespace = ns := by
        simp only [listFilter, Bool.and_eq_true] at hxfil
        have := hxfil.1.1.1
        simpa [inNamespaceScope, namespaceScope] using this
      have hmx : supersedeMatch ns f x = false :=
        supersede_no_rematch rows ns f g now x hxin
      rw [Bool.eq_false_iff] at hmx
      exact hmx ((supersedeMatch_eq_true ns f x).2 ⟨hxf, hns, hnone⟩)
    · have hnone : ((rows.map fun r =>
          if supersedeMatch ns f r then
            { r with SupersededBy := some g, SupersededAt := some now }
          else r).any (supersedeMatch ns f)) = false := by
        rw [List.any_eq_false]
        intro x hx
        simp [supersede_no_rematch rows ns f g now x hx]
      simp only [supersedeRows, hnone, Bool.false_eq_true, if_false]
  · intro habs
    have hany : rows.any (supersedeMatch ns f) = false := by
      rw [List.any_eq_false]
      intro x hx
      simp [habs x hx]
    simp only [supersedeRows, hany, Bool.false_eq_true, if_false]

theorem C4_supersession_one_shot_witness :
    (∃ rows', supersedeRows [sampleFact] "alpha" 1 2 5 = .ok rows' ∧
      getRow rows' "alpha" 1 =
        some { sampleFact with SupersededBy := some 2, SupersededAt := some 5 } ∧
      (∀ x ∈ listRows rows' "alpha" ⟨"", "", true, [], 0⟩, x.ID ≠ 1) ∧
      supersedeRows rows' "alpha" 1 3 7 =
        .error "memstore: fact 1 not found or already superseded") ∧
      supersedeRows [] "alpha" 1 2 5 =
        .error "memstore: fact 1 not found or already superseded" := by
  constructor
  · exact (C4_supersession_one_shot [sampleFact] "alpha" 1 2 3 5 7 sampleFact).1
      (by simp [uniqueIds]) (by simp) (by decide)
  · exact (C4_supersession_one_shot [] "alpha" 1 2 3 5 7 sampleFact).2
      (by intro r hr; cases hr)

/-! ### C10 — absence: `get` is silent, `delete`/`confirm` error -/

/-- C10: for an id with no row in the store's namespace, `Get` returns no
fact and no error, while `Delete` and `Confirm` each fail with a not-found
error. -/
theorem C10_absence_semantics (rows : List Fact) (ns : String) (id : Int)
    (now : ℚ) (habs : ∀ r ∈ rows, rowMatches ns id r = false) :
    getRow rows ns id = none ∧
      deleteRow rows ns id = .error s!"memstore: fact {id} not found" ∧
      confirmRow rows ns id now = .error s!"memstore: fact {id} not found" := by
  have hany : rows.any (rowMatches ns id) = false := by
    rw [List.any_eq_false]
    intro x hx
    simp [habs x hx]
  refine ⟨?_, ?_, ?_⟩
  · rw [getRow, List.find?_eq_none]
    intro x hx
    simp [habs x hx]
  · simp only [deleteRow, hany, Bool.false_eq_true, if_false]
  · simp only [confirmRow, hany, Bool.false_eq_true, if_false]

theorem C10_absence_semantics_witness :
    getRow [sampleFact] "alpha" 2 = none ∧
      deleteRow [sampleFact] "alpha" 2 =
        .error "memstore: fact 2 not found" ∧
      confirmRow [sampleFact] "alpha" 2 0 =
        .error "memstore: fact 2 not found" :=
  C10_absence_semantics [sampleFact] "alpha" 2 0 (by decide)

/-! ### C6 — namespace isolation -/

/-- C6: `Insert` forces the stored namespace to the store's own value; a
`Get`, `Delete`, `Supersede` or `SetEmbedding` naming an id that exists
only in another namespace returns none, a not-found error, a
not-found-or-already-superseded error, or is a silent no-op respectively;
and the rows `List`/search queries consider are scoped to exactly the
store's namespace when no override is given, and to exactly the listed
namespaces when a non-empty override is given. -/
theorem C6_namespace_isolation (rows : List Fact) (ns : String) (f : Fact)
    (id g : Int) (emb : List Nat) (now : ℚ) (o : QueryOpts) (r : Fact)
    (habs : ∀ x ∈ rows, x.ID = id → x.Namespace ≠ ns) :
    (∃ newRow, (insertRow rows ns now f).1 = rows ++ [newRow] ∧
        newRow.Namespace = ns ∧ newRow.Content = f.Content ∧
        newRow.Subject = f.Subject) ∧
      getRow rows ns id = none ∧
      deleteRow rows ns id = .error s!"memstore: fact {id} not found" ∧
      supersedeRows rows ns id g now =
        .error s!"memstore: fact {id} not found or already superseded" ∧
      setEmbeddingRows rows ns id emb = rows ∧
      (∀ x ∈ listRows rows ns o, x.Namespace ∈ namespaceScope ns o.Namespaces) ∧
      (o.Namespaces = [] →
        (inNamespaceScope ns o.Namespaces r = true ↔ r.Namespace = ns)) ∧
      (o.Namespaces ≠ [] →
        (inNamespaceScope ns o.Namespaces r = true ↔
          r.Namespace ∈ o.Namespaces)) := by
  have hrm : ∀ x ∈ rows, rowMatches ns id x = false := by
    intro x hx
    rw [Bool.eq_false_iff]
    intro hc
    obtain ⟨h1, h2⟩ := (rowMatches_eq_true ns id x).1 hc
    exact habs x hx h1 h2
  refine ⟨?_, ?_, ?_, ?_, ?_, ?_, ?_, ?_⟩
  · refine ⟨_, rfl, rfl, ?_, ?_⟩
    · by_cases h : f.CreatedAt = 0 <;> simp [insertRow, h]
    · by_cases h : f.CreatedAt = 0 <;> simp [insertRow, h]
  · rw [getRow, List.find?_eq_none]
    intro x hx
    simp [hrm x hx]
  · have hany : rows.any (rowMatches ns id) = false := by
      rw [List.any_eq_false]
      intro x hx
      simp [hrm x hx]
    simp only [deleteRow, hany, Bool.false_eq_true, if_false]
  · have hany : rows.any (supersedeMatch ns id) = false := by
      rw [List.any_eq_false]
      intro x hx
      intro hc
      obtain ⟨h1, h2, _⟩ := (supersedeMatch_eq_true ns id x).1 hc
      exact habs x hx h1 h2
    simp only [supersedeRows, hany, Bool.false_eq_true, if_false]
  · apply map_eq_self_of_mem
    intro x hx
    simp [hrm x hx]
  · intro x hx
    have hxf : x ∈ rows.filter (listFilter ns o) := by
      have hperm := List.perm_insertionSort (fun a b : Fact => a.ID ≤ b.ID)
        (rows.filter (listFilter ns o))
      simp only [listRows] at hx
      by_cases hl : o.Limit = 0
      · rw [if_pos hl] at hx
        exact hperm.mem_iff.1 hx
      · rw [if_neg hl] at hx
        exact hperm.mem_iff.1 (List.mem_of_mem_take hx)
    have := List.of_mem_filter hxf
    simp only [listFilter, Bool.and_eq_true] at this
    have hscope := this.1.1.1
    simpa [inNamespaceScope, List.elem_iff] using hscope
  · intro hnil
    simp [inNamespaceScope, namespaceScope, hnil, List.elem_iff]
  · intro hne
    simp [inNamespaceScope, namespaceScope, hne, List.elem_iff]

theorem C6_namespace_isolation_witness :
    (∃ newRow, (insertRow [sampleFact] "beta" 9 sampleFact).1 =
        [sampleFact] ++ [newRow] ∧ newRow.Namespace = "beta" ∧
        newRow.Content = sampleFact.Content ∧
        newRow.Subject = sampleFact.Subject) ∧
      getRow [sampleFact] "beta" 1 = none ∧
      deleteRow [sampleFact] "beta" 1 =
        .error "memstore: fact 1 not found" ∧
      supersedeRows [sampleFact] "beta" 1 2 9 =
        .error "memstore: fact 1 not found or already superseded" ∧
      setEmbeddingRows [sampleFact] "beta" 1 [7] = [sampleFact] ∧
      (∀ x ∈ listRows [sampleFact] "beta" ⟨"", "", false, ["alpha", "beta"], 0⟩,
        x.Namespace ∈ namespaceScope "beta" ["alpha", "beta"]) ∧
      ((["alpha", "beta"] : List String) = [] →
        (inNamespaceScope "beta" ["alpha", "beta"] sampleFact = true ↔
          sampleFact.Namespace = "beta")) ∧
      ((["alpha", "beta"] : List String) ≠ [] →
        (inNamespaceScope "beta" ["alpha", "beta"] sampleFact = true ↔
          sampleFact.Namespace ∈ ["alpha", "beta"])) :=
  C6_namespace_isolation [sampleFact] "beta" sampleFact 1 2 [7] 9
    ⟨"", "", false, ["alpha", "beta"], 0⟩ sampleFact (by decide)

/-! ### C8 — the metadata-conflict predicate -/

/-- C8: the metadata-conflict predicate returns true iff both payloads are
parsed objects and some key present in both has different rendered values;
in particular it is false whenever either payload is empty, missing or
unparseable (`none` in the parse-outcome model), false when all shared
keys agree or no key is shared, and true when a shared key's values
differ — as on the specification's four concrete examples. -/
theorem C8_metadata_conflicts_iff (a b : Option (List (String × String))) :
    (MetadataConflicts a b = true ↔
      ∃ ma mb, a = some ma ∧ b = some mb ∧
        ∃ k va vb, (k, va) ∈ ma ∧ mb.lookup k = some vb ∧ va ≠ vb) ∧
      MetadataConflicts none b = false ∧
      MetadataConflicts a none = false ∧
      MetadataConflicts (some []) b = false ∧
      MetadataConflicts (some [("k", "1")]) (some [("k", "2")]) = true ∧
      MetadataConflicts (some [("k", "1"), ("l", "a")])
        (some [("k", "1"), ("l", "b")]) = true ∧
      MetadataConflicts (some [("k", "1")]) (some [("m", "2")]) = false := by
  refine ⟨?_, ?_, ?_, ?_, by decide, by decide, by decide⟩
  · constructor
    · intro h
      match a, b, h with
      | some ma, some mb, h =>
          rw [MetadataConflicts, List.any_eq_true] at h
          obtain ⟨kv, hkv, hmatch⟩ := h
          refine ⟨ma, mb, rfl, rfl, kv.1, kv.2, ?_⟩
          cases hlk : mb.lookup kv.1 with
          | none => rw [hlk] at hmatch; cases hmatch
          | some vb =>
              rw [hlk] at hmatch
              simp only [bne_iff_ne, ne_eq] at hmatch
              refine ⟨vb, ?_, rfl, hmatch⟩
              simpa using hkv
    · rintro ⟨ma, mb, rfl, rfl, k, va, vb, hmem, hlk, hne⟩
      rw [MetadataConflicts, List.any_eq_true]
      refine ⟨(k, va), hmem, ?_⟩
      rw [hlk]
      simpa using hne
  · cases b <;> rfl
  · cases a <;> rfl
  · cases b <;> rfl

/-! ### C7 — automatic supersession after insert -/

theorem eligibleCandidate_eq_true (newFact r : Fact) :
    eligibleCandidate newFact r = true ↔
      (r.ID == newFact.ID) = false ∧ (r.Embedding == ([] : List Nat)) = false ∧
        MetadataConflicts newFact.Metadata r.Metadata = false := by
  simp only [eligibleCandidate, Bool.and_eq_true, Bool.not_eq_true']
  tauto

theorem supersedeStep_skip (newFact : Fact) (sim : Fact → Fact → ℚ)
    (best : ℚ × Int) (r : Fact) (h : eligibleCandidate newFact r = false) :
    supersedeStep newFact sim best r = best := by
  rw [supersedeStep]
  by_cases h1 : (r.ID == newFact.ID) = true
  · rw [if_pos h1]
  · rw [if_neg h1]
    by_cases h2 : (r.Embedding == ([] : List Nat)) = true
    · rw [if_pos h2]
    · rw [if_neg h2]
      have h3 : MetadataConflicts newFact.Metadata r.Metadata = true := by
        by_contra hc
        have : eligibleCandidate newFact r = true :=
          (eligibleCandidate_eq_true newFact r).2
            ⟨Bool.eq_false_iff.2 h1, Bool.eq_false_iff.2 h2,
              Bool.eq_false_iff.2 hc⟩
        rw [this] at h
        cases h
      rw [if_pos h3]

theorem supersedeStep_keep (newFact : Fact) (sim : Fact → Fact → ℚ)
    (best : ℚ × Int) (r : Fact) (h : eligibleCandidate newFact r = true) :
    supersedeStep newFact sim best r =
      if sim newFact r > best.1 then (sim newFact r, r.ID) else best := by
  obtain ⟨h1, h2, h3⟩ := (eligibleCandidate_eq_true newFact r).1 h
  rw [supersedeStep, if_neg (by simp [h1]), if_neg (by simp [h2]),
    if_neg (by simp [h3])]

theorem foldl_supersedeStep_filter (newFact : Fact) (sim : Fact → Fact → ℚ)
    (l : List Fact) :
    ∀ init, l.foldl (supersedeStep newFact sim) init =
      (l.filter (eligibleCandidate newFact)).foldl
        (supersedeStep newFact sim) init := by
  induction l with
  | nil => intro _; rfl
  | cons a t ih =>
      intro init
      by_cases he : eligibleCandidate newFact a = true
      · simp only [List.foldl_cons, List.filter_cons, he, if_true]
        exact ih _
      · have he' : eligibleCandidate newFact a = false := Bool.eq_false_iff.2 he
        simp only [List.foldl_cons, List.filter_cons, he', Bool.false_eq_true,
          if_false, supersedeStep_skip newFact sim init a he']
        exact ih init

theorem foldl_supersedeStep_fst (newFact : Fact) (sim : Fact → Fact → ℚ)
    (l : List Fact) (hall : ∀ r ∈ l, eligibleCandidate newFact r = true) :
    ∀ init : ℚ × Int, (l.foldl (supersedeStep newFact sim) init).1 =
      l.foldl (fun m r => max m (sim newFact r)) init.1 := by
  induction l with
  | nil => intro _; rfl
  | cons a t ih =>
      intro init
      have ha := hall a (by simp)
      have ht : ∀ r ∈ t, eligibleCandidate newFact r = true := fun r hr =>
        hall r (by simp [hr])
      rw [List.foldl_cons, List.foldl_cons,
        supersedeStep_keep newFact sim init a ha]
      by_cases hs : sim newFact a > init.1
      · rw [if_pos hs, ih ht (sim newFact a, a.ID)]
        congr 1
        exact (max_eq_right (le_of_lt hs)).symm
      · rw [if_neg hs, ih ht init]
        congr 1
        exact (max_eq_left (not_lt.1 hs)).symm

theorem foldl_supersedeStep_mem (newFact : Fact) (sim : Fact → Fact → ℚ)
    (l : List Fact) :
    ∀ init : ℚ × Int, l.foldl (supersedeStep newFact sim) init = init ∨
      ∃ r ∈ l, l.foldl (supersedeStep newFact sim) init =
        (sim newFact r, r.ID) := by
  induction l with
  | nil => intro init; left; rfl
  | cons a t ih =>
      intro init
      rw [List.foldl_cons]
      have hstep : supersedeStep newFact sim init a = init ∨
          supersedeStep newFact sim init a = (sim newFact a, a.ID) := by
        rw [supersedeStep]
        by_cases h1 : (a.ID == newFact.ID) = true
        · left; rw [if_pos h1]
        · by_cases h2 : (a.Embedding == ([] : List Nat)) = true
          · left; rw [if_neg h1, if_pos h2]
          · by_cases h3 : MetadataConflicts newFact.Metadata a.Metadata = true
            · left; rw [if_neg h1, if_neg h2, if_pos h3]
            · by_cases h4 : sim newFact a > init.1
              · right; rw [if_neg h1, if_neg h2, if_neg h3, if_pos h4]
              · left; rw [if_neg h1, if_neg h2, if_neg h3, if_neg h4]
      rcases hstep with h | h
      · rw [h]
        rcases ih init with h' | ⟨r, hr, h'⟩
        · left; exact h'
        · right; exact ⟨r, by simp [hr], h'⟩
      · rw [h]
        rcases ih (sim newFact a, a.ID) with h' | ⟨r, hr, h'⟩
        · right; exact ⟨a, by simp, by rw [h']⟩
        · right; exact ⟨r, by simp [hr], h'⟩

theorem supersedeFold_fst (newFact : Fact) (sim : Fact → Fact → ℚ)
    (results : List Fact) :
    (supersedeFold newFact sim results).1 =
      bestEligibleSim newFact sim results := by
  rw [supersedeFold, foldl_supersedeStep_filter, bestEligibleSim]
  exact foldl_supersedeStep_fst newFact sim _
    (fun r hr => List.of_mem_filter hr) (0, 0)

theorem supersedeFold_cases (newFact : Fact) (sim : Fact → Fact → ℚ)
    (results : List Fact) :
    supersedeFold newFact sim results = (0, 0) ∨
      ∃ r ∈ results, eligibleCandidate newFact r = true ∧
        supersedeFold newFact sim results = (sim newFact r, r.ID) := by
  rw [supersedeFold, foldl_supersedeStep_filter]
  rcases foldl_supersedeStep_mem newFact sim
      (results.filter (eligibleCandidate newFact)) (0, 0) with h | ⟨r, hr, h⟩
  · left; exact h
  · right
    exact ⟨r, List.mem_of_mem_filter hr, List.of_mem_filter hr, h⟩

/-- C7: the auto-supersession decision fires iff the guards pass (an
embedder is configured, the inserted fact has an embedding and an id) and
the highest cosine similarity among the non-skipped candidates — skipping
the new fact itself, candidates without embeddings, and metadata
conflicts — reaches the 0.85 threshold; when it fires, the superseded id
is an eligible candidate achieving that best similarity; and the
candidate loop is insensitive to skipped candidates. -/
theorem C7_auto_supersession (embedderPresent : Bool) (newFact : Fact)
    (sim : Fact → Fact → ℚ) (results : List Fact)
    (hpos : ∀ r ∈ results, r.ID ≠ 0) :
    (trySupersedeExisting embedderPresent newFact sim results ≠ none ↔
      embedderPresent = true ∧ newFact.Embedding ≠ [] ∧ newFact.ID ≠ 0 ∧
        similarityThreshold ≤ bestEligibleSim newFact sim results) ∧
      (∀ b, trySupersedeExisting embedderPresent newFact sim results = some b →
        ∃ r ∈ results, eligibleCandidate newFact r = true ∧ r.ID = b ∧
          sim newFact r = bestEligibleSim newFact sim results) ∧
      supersedeFold newFact sim results =
        supersedeFold newFact sim
          (results.filter (eligibleCandidate newFact)) := by
  have hfst := supersedeFold_fst newFact sim results
  refine ⟨?_, ?_, ?_⟩
  · rw [trySupersedeExisting]
    by_cases hg : (!embedderPresent || newFact.Embedding == [] ||
        newFact.ID == 0) = true
    · rw [if_pos hg]
      constructor
      · intro h
        exact absurd rfl h
      · rintro ⟨h1, h2, h3, _⟩
        exfalso
        simp only [Bool.or_eq_true, Bool.not_eq_true', beq_iff_eq] at hg
        rcases hg with (hg | hg) | hg
        · rw [h1] at hg
          cases hg
        · exact h2 hg
        · exact h3 hg
    · rw [if_neg hg]
      simp only [Bool.or_eq_true, Bool.not_eq_true', beq_iff_eq, not_or] at hg
      obtain ⟨⟨hg1, hg2⟩, hg3⟩ := hg
      have hg1' : embedderPresent = true := by
        cases embedderPresent
        · exact absurd rfl hg1
        · rfl
      constructor
      · intro h
        by_cases hth : (supersedeFold newFact sim results).1 <
            similarityThreshold
        · rw [if_pos (Or.inl hth)] at h
          exact absurd rfl h
        · refine ⟨hg1', hg2, hg3, ?_⟩
          rw [← hfst]
          exact not_lt.1 hth
      · rintro ⟨_, _, _, hth⟩
        have hth' : ¬ (supersedeFold newFact sim results).1 <
            similarityThreshold := by
          rw [hfst]; exact not_lt.2 hth
        have hpos' : (supersedeFold newFact sim results).2 ≠ 0 := by
          rcases supersedeFold_cases newFact sim results with h | ⟨r, hr, _, h⟩
          · rw [h] at hth'
            exact absurd (by norm_num [similarityThreshold]) hth'
          · rw [h]
            exact hpos r hr
        rw [if_neg (not_or.2 ⟨hth', hpos'⟩)]
        simp
  · intro b hb
    rw [trySupersedeExisting] at hb
    by_cases hg : (!embedderPresent || newFact.Embedding == [] ||
        newFact.ID == 0) = true
    · rw [if_pos hg] at hb; cases hb
    · rw [if_neg hg] at hb
      by_cases hth : ((supersedeFold newFact sim results).1 <
          similarityThreshold ∨ (supersedeFold newFact sim results).2 = 0)
      · rw [if_pos hth] at hb; cases hb
      · rw [if_neg hth] at hb
        rcases supersedeFold_cases newFact sim results with h | ⟨r, hr, helig, h⟩
        · rw [h] at hth
          exact absurd (Or.inl (by norm_num [similarityThreshold])) hth
        · refine ⟨r, hr, helig, ?_, ?_⟩
          · rw [← Option.some_inj.1 hb, h]
          · rw [← hfst, h]
  · rw [supersedeFold, supersedeFold]
    exact foldl_supersedeStep_filter newFact sim results (0, 0)

theorem C7_auto_supersession_witness :
    (trySupersedeExisting true sampleNewFact
        (fun _ _ => 9 / 10) [sampleFact] ≠ none ↔
      true = true ∧ sampleNewFact.Embedding ≠ [] ∧ sampleNewFact.ID ≠ 0 ∧
        similarityThreshold ≤ bestEligibleSim sampleNewFact
          (fun _ _ => 9 / 10) [sampleFact]) ∧
      (∀ b, trySupersedeExisting true sampleNewFact
          (fun _ _ => 9 / 10) [sampleFact] = some b →
        ∃ r ∈ [sampleFact],
          eligibleCandidate sampleNewFact r = true ∧ r.ID = b ∧
            (fun _ _ => (9 : ℚ) / 10) sampleNewFact r =
              bestEligibleSim sampleNewFact (fun _ _ => 9 / 10) [sampleFact]) ∧
      supersedeFold sampleNewFact (fun _ _ => 9 / 10) [sampleFact] =
        supersedeFold sampleNewFact (fun _ _ => 9 / 10)
          ([sampleFact].filter (eligibleCandidate sampleNewFact)) :=
  C7_auto_supersession true sampleNewFact
    (fun _ _ => 9 / 10) [sampleFact] (by decide)

/-! ### C1 — per-category decay (divergence between code and spec) -/

/-- C1: the decay step of `mergeResults` never consults `CategoryDecay`:
the output is identical for any two values of that field, and on a
concrete search — a 30-day-old `note` fact, `CategoryDecay = {note: 0}`
(the documented "exempt this category" setting) and a 7-day default
half-life — the note row's combined score is still multiplied by
`pow(age / default_half_life)` (`pow x` standing for `0.5^x`, which is
`< 1` for positive age), where the claim requires it to be left
unchanged. -/
theorem C1_category_decay_ignored :
    (∀ (pow : ℚ → ℚ) (now : ℚ) (fts vec : List SearchResult)
        (o : SearchOpts) (cd : List (String × ℚ)),
      mergeResults pow now fts vec { o with CategoryDecay := cd } =
        mergeResults pow now fts vec o) ∧
      ∀ pow : ℚ → ℚ,
        mergeResults pow 2592000
            [{ Fact := noteFact, FTSScore := 2, VecScore := 0, Combined := 0 }]
            []
            { MaxResults := 10, FTSWeight := 3 / 5, VecWeight := 2 / 5,
              DecayHalfLife := 604800, CategoryDecay := [("note", 0)] } =
          [{ Fact := noteFact, FTSScore := 1, VecScore := 0,
             Combined := 3 / 5 * pow (30 / 7) }] := by
  constructor
  · intro pow now fts vec o cd
    rfl
  · intro pow
    have harg : ((2592000 : ℚ) - noteFact.CreatedAt) / 604800 = 30 / 7 := by
      norm_num [noteFact, sampleFact]
    simp only [mergeResults, maxFTSScore, upsertById, overlayVec, scoreResult,
      List.foldl_cons, List.foldl_nil, List.map_cons, List.map_nil,
      List.insertionSort, List.orderedInsert, harg]
    norm_num [List.insertionSort, List.orderedInsert]

/-! ### C2 — schema version and usage counters -/

/-- C2: evaluating the migration chain of sqlite.go on a fresh database:
`migrate` stops at stored version 5 — `schemaVersion` is 5, there is no V6
step — and the fact table it builds has no `use_count` or `last_used_at`
column, so no operation on this store can maintain the usage counters the
claim describes. -/
theorem C2_migrate_stops_at_v5 :
    (migrate emptyDb).versionRow = some 5 ∧
      (migrate emptyDb).factsTable =
        some ["id", "content", "subject", "category", "metadata",
          "superseded_by", "embedding", "created_at", "namespace",
          "superseded_at", "confirmed_count", "last_confirmed_at"] ∧
      "use_count" ∉ ((migrate emptyDb).factsTable.getD []) ∧
      "last_used_at" ∉ ((migrate emptyDb).factsTable.getD []) ∧
      schemaVersion ≠ 6 := by
  refine ⟨by decide, by decide, by decide, by decide, by decide⟩

/-! ### C3 — embedder model binding -/

theorem meta_addColumn (s : DbState) (c : String) :
    (addColumn s c).meta = s.meta := by
  cases h : s.factsTable <;> simp [addColumn, h]

theorem migrate_meta (s : DbState) : (migrate s).meta = s.meta := by
  have h1 : ∀ t, (migrateV1 t).meta = t.meta := fun _ => rfl
  have h2 : ∀ t, (migrateV2 t).meta = t.meta := fun _ => rfl
  have h3 : ∀ t, (migrateV3 t).meta = t.meta := by
    intro t
    have hstep : (migrateV3 t).meta = (addColumn t "namespace").meta := rfl
    rw [hstep]
    exact meta_addColumn t "namespace"
  have h4 : ∀ t, (migrateV4 t).meta = t.meta := fun t => meta_addColumn t _
  have h5 : ∀ t, (migrateV5 t).meta = t.meta := by
    intro t
    exact (meta_addColumn _ _).trans (meta_addColumn _ _)
  rw [migrate]
  split
  · rfl
  · split_ifs <;> simp [h1, h2, h3, h4, h5]

/-- C3 counterexample: with a recorded binding of model `m` and dimension
4, opening with an embedder whose model matches but which produces
8-dimensional vectors succeeds — the recorded dimension is not verified at
open, refuting "both are verified on every subsequent store open". -/
theorem C3_dimension_not_verified :
    lookupMeta [("embedding_model", "m"), ("embedding_dim", "4")]
        "embedding_dim" = some "4" ∧
      toString (8 : Nat) ≠ "4" ∧
      validateEmbedder [("embedding_model", "m"), ("embedding_dim", "4")]
        ({ model := "m", dim := 8 } : EmbedderModel).model = .ok () ∧
      (∃ st, NewSQLiteStore
        { emptyDb with meta := [("embedding_model", "m"), ("embedding_dim", "4")] }
        (some { model := "m", dim := 8 }) "ns" = .ok st) := by
  refine ⟨by decide, by decide, rfl, ?_⟩
  exact ⟨(migrate { emptyDb with
    meta := [("embedding_model", "m"), ("embedding_dim", "4")] }, "ns"), rfl⟩

/-- C3 amended: on open with an embedder, the recorded model identifier
(only) is verified: no recorded model, or an equal one, lets the open
succeed; a differing recorded model fails the open with the
model-mismatch error and no store is produced; and the first embedding
write records both the model identifier and the dimension while
subsequent writes record nothing. -/
theorem C3_model_binding (s : DbState) (em : String) (ed : Nat) (ns : String)
    (stored : String) (dim : Nat) (meta : List (String × String)) :
    (lookupMeta s.meta "embedding_model" = none →
      NewSQLiteStore s (some ⟨em, ed⟩) ns = .ok (migrate s, ns)) ∧
      (lookupMeta s.meta "embedding_model" = some em →
        NewSQLiteStore s (some ⟨em, ed⟩) ns = .ok (migrate s, ns)) ∧
      (lookupMeta s.meta "embedding_model" = some stored → stored ≠ em →
        NewSQLiteStore s (some ⟨em, ed⟩) ns = .error
          s!"memstore: embedding model mismatch: store has {stored}, embedder provides {em}") ∧
      (meta.countP (fun kv => kv.1 == "embedding_model") = 0 →
        recordEmbedder meta em dim =
          meta ++ [("embedding_model", em),
            ("embedding_dim", toString dim)]) ∧
      (0 < meta.countP (fun kv => kv.1 == "embedding_model") →
        recordEmbedder meta em dim = meta) := by
  have hm := migrate_meta s
  refine ⟨?_, ?_, ?_, ?_, ?_⟩
  · intro h
    simp only [NewSQLiteStore, validateEmbedder, hm, h]
  · intro h
    simp only [NewSQLiteStore, validateEmbedder, hm, h]
    simp
  · intro h hne
    simp only [NewSQLiteStore, validateEmbedder, hm, h]
    rw [if_pos (fun hc => hne hc.symm)]
  · intro h
    rw [recordEmbedder, if_neg (by omega)]
  · intro h
    rw [recordEmbedder, if_pos h]

theorem C3_model_binding_witness :
    NewSQLiteStore { emptyDb with meta := [("embedding_model", "m")] }
        (some { model := "x", dim := 4 }) "ns" =
      .error
        "memstore: embedding model mismatch: store has m, embedder provides x" ∧
      recordEmbedder [] "m" 4 =
        [("embedding_model", "m"), ("embedding_dim", "4")] := by
  constructor
  · have h := (C3_model_binding
      { emptyDb with meta := [("embedding_model", "m")] }
      "x" 4 "ns" "m" 4 []).2.2.1 (by decide) (by decide)
    simpa using h
  · have h := (C3_model_binding emptyDb "m" 4 "ns" "m" 4 []).2.2.2.1
      (by decide)
    simpa using h

theorem C9_codec_roundtrip_witness :
    EncodeFloat32s (DecodeFloat32s [255, 1, 0, 64]) = [255, 1, 0, 64] ∧
      DecodeFloat32s (EncodeFloat32s [1065353216, 3212836864]) =
        [1065353216, 3212836864] ∧
      (EncodeFloat32s [1065353216, 3212836864]).length = 4 * 2 := by
  have h := C9_codec_roundtrip [255, 1, 0, 64] [1065353216, 3212836864]
    (by intro b hb; fin_cases hb <;> norm_num)
    (by norm_num)
    (by intro w hw; fin_cases hw <;> norm_num)
  simpa using h

end Memstore
